import Mathlib

/-!
Shallow embedding of the research-agent pipeline of
`beniulis/agentic-tool-digest`, translated from
`src/server/research-agent-server.mjs`, together with theorems settling the
frozen claims about the specification.  JavaScript numbers are modelled as
rationals (`ℚ`), JavaScript strings as Lean `String`s over their character
lists, fallible asynchronous operations as `Except`-valued functions over an
explicit network environment.
-/

namespace ResearchAgent

/-- A character that can appear in a token produced by `tokenize`: a
lowercase ASCII letter or digit, the complement of the split pattern
`[^a-z0-9]+`. -/
def isWordChar (c : Char) : Bool :=
  ('a' ≤ c && c ≤ 'z') || ('0' ≤ c && c ≤ '9')

/-- Splits a character stream into the maximal nonempty runs of word
characters, mirroring `text.split(/[^a-z0-9]+/).filter(Boolean)`.  The
accumulator `cur` holds the (reversed) run currently being read. -/
def splitRuns : List Char → List Char → List (List Char)
  | [], cur => if cur.isEmpty then [] else [cur.reverse]
  | c :: rest, cur =>
    if isWordChar c then
      splitRuns rest (c :: cur)
    else if cur.isEmpty then
      splitRuns rest []
    else
      cur.reverse :: splitRuns rest []

/-- Embeds `tokenize` from `server/research-agent-server.mjs`: lower-case the text,
split it on runs of non-alphanumeric characters and drop empty pieces.
(`Char.toLower` folds ASCII capitals; the JS `toLowerCase` also folds
non-ASCII letters, but such letters can never enter a token either way.) -/
def tokenize (text : String) : List String :=
  (splitRuns (text.data.map Char.toLower) []).map (fun cs => String.mk cs)

/-- The fixed positive lexicon (`positiveWords`). -/
def positiveWords : List String :=
  ["accessible", "accurate", "amazing", "awesome", "beneficial", "best",
   "breakthrough", "clean", "comprehensive", "convenient", "effective",
   "efficient", "empowering", "excellent", "fast", "flexible", "great",
   "helpful", "impressive", "innovative", "intuitive", "love", "productive",
   "progress", "reliable", "recommend", "robust", "solid", "streamlined",
   "success", "supportive", "transformative", "useful", "valuable",
   "well-designed"]

/-- The fixed negative lexicon (`negativeWords`). -/
def negativeWords : List String :=
  ["annoying", "broken", "bug", "buggy", "confusing", "crash", "difficult",
   "disappointed", "expensive", "fail", "frustrating", "hard", "hate",
   "inaccurate", "issue", "lag", "laggy", "lacking", "limited", "negative",
   "outdated", "overpriced", "poor", "problem", "slow", "terrible",
   "unreliable", "unsatisfied", "unusable", "worse"]

/-- A lexicon hit recorded by `analyzeSentiment` (`{token, polarity}`). -/
structure Highlight where
  token : String
  polarity : String
deriving DecidableEq

/-- The value returned by `analyzeSentiment`. -/
structure SentimentResult where
  score : Int
  normalizedScore : ℚ
  label : String
  positive : Nat
  negative : Nat
  total : Nat
  highlights : List Highlight
deriving DecidableEq

/-- The token-classification loop of `analyzeSentiment`: counts positive and
negative lexicon hits (`Set.has` becomes list membership) and appends the
highlights in encounter order. -/
def classifyTokens : List String → Nat × Nat × List Highlight → Nat × Nat × List Highlight
  | [], acc => acc
  | t :: ts, (p, n, hs) =>
    if t ∈ positiveWords then
      classifyTokens ts (p + 1, n, hs ++ [⟨t, "positive"⟩])
    else if t ∈ negativeWords then
      classifyTokens ts (p, n + 1, hs ++ [⟨t, "negative"⟩])
    else
      classifyTokens ts (p, n, hs)

/-- Embeds `analyzeSentiment` from `server/research-agent-server.mjs`.  The JS
`tokens.length || 1` is the conditional on the length being zero; division
is exact rational division. -/
def analyzeSentiment (text : String) : SentimentResult :=
  let tokens := tokenize text
  let counts := classifyTokens tokens (0, 0, [])
  let positive := counts.1
  let negative := counts.2.1
  let highlights := counts.2.2
  let total := if tokens.length = 0 then 1 else tokens.length
  let score : Int := (positive : Int) - (negative : Int)
  let normalizedScore : ℚ := (score : ℚ) / (total : ℚ)
  let label :=
    if normalizedScore > 0.02 then "positive"
    else if normalizedScore < -0.02 then "negative"
    else "neutral"
  { score := score, normalizedScore := normalizedScore, label := label,
    positive := positive, negative := negative, total := total,
    highlights := highlights }

/-- A sentiment mention as pushed by `gatherPublicSentiment`: either a scored
article, or the record of a fetch/extraction failure, whose `error` field
holds the error message. -/
inductive Mention where
  | ok (title url snippet : String) (sentiment : SentimentResult)
      (source : Option String) (publishedAt : Option String)
  | err (title url error : String)
deriving DecidableEq

/-- The `url` field common to both mention shapes. -/
def Mention.url : Mention → String
  | .ok _ u _ _ _ _ => u
  | .err _ u _ => u

/-- The negation `!mention.error` of the JS source: true exactly when the mention carries
a sentiment instead of an error. -/
def Mention.isOk : Mention → Bool
  | .ok _ _ _ _ _ _ => true
  | .err _ _ _ => false

/-- The sentiment carried by an error-free mention. -/
def Mention.sentimentOf : Mention → Option SentimentResult
  | .ok _ _ _ s _ _ => some s
  | .err _ _ _ => none

/-- The `{positive, neutral, negative}` distribution of a summary. -/
structure Distribution where
  positive : Nat
  neutral : Nat
  negative : Nat
deriving DecidableEq

/-- The value returned by `summariseSentiment`. -/
structure SentimentSummary where
  averageScore : ℚ
  averageNormalizedScore : ℚ
  distribution : Distribution
  rating : String
deriving DecidableEq

/-- The `reduce` accumulator loop of `summariseSentiment`.  The JS
`acc[entry.sentiment.label] += 1` bumps one of the three distribution
buckets; a label outside the three would touch a property the returned
distribution never reads, which the three guarded increments mirror. -/
def sumSentiments : List SentimentResult → Int × ℚ × Nat × Nat × Nat → Int × ℚ × Nat × Nat × Nat
  | [], acc => acc
  | s :: ss, (sc, no, p, ne, ng) =>
    sumSentiments ss
      (sc + s.score, no + s.normalizedScore,
       p + (if s.label = "positive" then 1 else 0),
       ne + (if s.label = "neutral" then 1 else 0),
       ng + (if s.label = "negative" then 1 else 0))

/-- Embeds `summariseSentiment` from `server/research-agent-server.mjs`.  The JS
filter `entry && !entry.error` keeps exactly the mentions carrying a
sentiment (entries are never null), which `Mention.sentimentOf` extracts. -/
def summariseSentiment (entries : List Mention) : SentimentSummary :=
  let valid := entries.filterMap Mention.sentimentOf
  if valid.length = 0 then
    { averageScore := 0, averageNormalizedScore := 0,
      distribution := ⟨0, 0, 0⟩, rating := "unknown" }
  else
    let totals := sumSentiments valid (0, 0, 0, 0, 0)
    let averageScore : ℚ := (totals.1 : ℚ) / (valid.length : ℚ)
    let averageNormalizedScore : ℚ := totals.2.1 / (valid.length : ℚ)
    let rating :=
      if averageNormalizedScore > 0.02 then "positive"
      else if averageNormalizedScore < -0.02 then "negative"
      else "neutral"
    { averageScore := averageScore,
      averageNormalizedScore := averageNormalizedScore,
      distribution := ⟨totals.2.2.1, totals.2.2.2.1, totals.2.2.2.2⟩,
      rating := rating }

/-- Case-insensitive ASCII test that `pat` begins the stream `s` (the `i`
flag of the JS regexes). -/
def leadsCI : List Char → List Char → Bool
  | [], _ => true
  | _ :: _, [] => false
  | p :: ps, c :: cs => (p.toLower == c.toLower) && leadsCI ps cs

/-- Drops through `s` to just past the first (case-insensitive) occurrence
of `pat`; `none` when `pat` does not occur. -/
def skipPastCI (pat : List Char) : List Char → Option (List Char)
  | [] => if pat.isEmpty then some [] else none
  | c :: rest =>
    if leadsCI pat (c :: rest) then some ((c :: rest).drop pat.length)
    else skipPastCI pat rest

/-- One global, lazy, case-insensitive replacement pass for a JS pattern of
the shape `open[\s\S]*?close` (used by `stripHtml` with
`<script…</script>` and `<style…</style>`): each shortest span from an
occurrence of the opening literal to the following occurrence of the
closing literal is replaced by a single space; an opening literal with no
later closing literal is left alone, as the regex then has no match there.
The fuel argument only bounds the recursion; every step consumes at least
one character, so the initial fuel `s.length` supplied by `stripSpans` is
never exhausted. -/
def stripSpansF (o : Char) (oRest close : List Char) : Nat → List Char → List Char
  | 0, s => s
  | _ + 1, [] => []
  | fuel + 1, c :: rest =>
    if leadsCI (o :: oRest) (c :: rest) then
      match skipPastCI close ((c :: rest).drop (o :: oRest).length) with
      | some suffix => ' ' :: stripSpansF o oRest close fuel suffix
      | none => c :: stripSpansF o oRest close fuel rest
    else
      c :: stripSpansF o oRest close fuel rest

/-- The replacement pass of `stripSpansF` at its full fuel. -/
def stripSpans (o : Char) (oRest close : List Char) (s : List Char) : List Char :=
  stripSpansF o oRest close s.length s

/-- The pass for `/<[\s\S]*?>/g`: each shortest span from a `<` to the next
`>` becomes a single space; a `<` with no later `>` stays.  Fuel as in
`stripSpansF`. -/
def stripAngleTagsF : Nat → List Char → List Char
  | 0, s => s
  | _ + 1, [] => []
  | fuel + 1, c :: rest =>
    if c == '<' then
      match skipPastCI ['>'] rest with
      | some suffix => ' ' :: stripAngleTagsF fuel suffix
      | none => c :: stripAngleTagsF fuel rest
    else
      c :: stripAngleTagsF fuel rest

/-- The tag-removal pass of `stripAngleTagsF` at its full fuel. -/
def stripAngleTags (s : List Char) : List Char :=
  stripAngleTagsF s.length s

/-- JS `\s` on the ASCII whitespace characters. -/
def isJsWs (c : Char) : Bool :=
  c == ' ' || c == '\t' || c == '\n' || c == '\r' || c == '\x0b' || c == '\x0c'

/-- Embeds `.replace(/\s+/g, " ")`: each maximal whitespace run becomes a single
space. -/
def collapseWs : List Char → List Char
  | [] => []
  | [c] => if isJsWs c then [' '] else [c]
  | c :: d :: rest =>
    if isJsWs c then
      if isJsWs d then collapseWs (d :: rest)
      else ' ' :: collapseWs (d :: rest)
    else
      c :: collapseWs (d :: rest)

/-- Embeds `.trim()`: strips whitespace from both ends. -/
def trimWs (cs : List Char) : List Char :=
  ((cs.dropWhile isJsWs).reverse.dropWhile isJsWs).reverse

/-- Embeds `stripHtml` from `server/research-agent-server.mjs`: remove script
blocks, then style blocks, then every remaining tag, collapse whitespace
and trim. -/
def stripHtml (html : String) : String :=
  String.mk (trimWs (collapseWs (stripAngleTags
    (stripSpans '<' "style".data "</style>".data
      (stripSpans '<' "script".data "</script>".data html.data)))))

/-- Embeds `text.slice(0, n)` for the text handled here: the first `n` characters. -/
def firstChars (n : Nat) (s : String) : String :=
  String.mk (s.data.take n)

/-- A search result in the shape produced by `tavilySearch`. -/
structure SearchResult where
  title : String
  url : String
  snippet : String
  score : Option ℚ
  publishedAt : Option String
  source : Option String
deriving DecidableEq

/-- Models `extractHostname` (`new URL(url).hostname` under `try/catch`)
for URLs of the common `scheme://host…` shape: the host runs to the first
`/`, `:`, `?` or `#` after the `://`; no `://`, or an empty host, is the
`catch` branch.  This approximates full WHATWG URL parsing, which only
feeds the informational `source` field. -/
def extractHostname (url : String) : Option String :=
  match skipPastCI "://".data url.data with
  | none => none
  | some rest =>
    let host := rest.takeWhile (fun c => !(c == '/' || c == ':' || c == '?' || c == '#'))
    if host.isEmpty then none else some (String.mk host)

/-- A raw item of the Tavily response payload (`payload.results[i]`); the
items carry a URL, every other field may be absent.  A `score` is present
exactly when the JS value is a number. -/
structure TavilyItem where
  title : Option String
  url : String
  content : Option String
  snippet : Option String
  score : Option ℚ
  publishedDate : Option String
  date : Option String
  source : Option String
  author : Option String

/-- One observed HTTP exchange with the Tavily endpoint: the fetch either
rejected, or produced a response with its `ok` flag, status code, body
text, and — when the JSON body parsed to an object whose `results` is an
array — that array (`none` models a missing or non-array `results`, which
the code replaces with `[]`). -/
inductive TavilyReply where
  | netError (message : String)
  | response (ok : Bool) (status : Nat) (bodyText : String)
      (results : Option (List TavilyItem))

/-- Embeds `tavilySearch` from `server/research-agent-server.mjs`: requires the
API key, surfaces transport and non-2xx failures as errors, then maps the
first `maxResults` raw items into `SearchResult`s. -/
def tavilySearch (apiKey : Option String) (reply : TavilyReply)
    (query : String) (maxResults : Nat) : Except String (List SearchResult) :=
  match apiKey with
  | none => .error "TAVILY_API_KEY environment variable must be provided to use Tavily search."
  | some _ =>
    match reply with
    | .netError m => .error m
    | .response ok status bodyText raw =>
      if !ok then
        .error ("Tavily search failed (" ++ toString status ++ "): " ++ bodyText)
      else
        let results := raw.getD []
        .ok ((results.take maxResults).map (fun item =>
          { title := item.title.getD item.url
            url := item.url
            snippet := (item.content <|> item.snippet).getD ""
            score := item.score
            publishedAt := item.publishedDate <|> item.date
            source := item.source <|> item.author <|> extractHostname item.url }))

/-- Embeds `performSearch`: it dispatches on the configured `SEARCH_PROVIDER`; only
`"tavily"` is supported and any other configuration is an error — the
dispatcher itself consults no second provider. -/
def performSearch (provider : String) (apiKey : Option String)
    (reply : TavilyReply) (query : String) (maxResults : Nat) :
    Except String (List SearchResult) :=
  if provider = "tavily" then tavilySearch apiKey reply query maxResults
  else
    .error ("Unsupported search provider \"" ++ provider ++
      "\". Set RESEARCH_SEARCH_PROVIDER to a supported provider.")

/-- One observed page fetch in `gatherPublicSentiment`: the fetch either
rejected (network failure or the 12s abort), or returned a response with
its `ok` flag, status and body. -/
inductive FetchOutcome where
  | netError (message : String)
  | response (ok : Bool) (status : Nat) (body : String)

/-- Whether a fetch outcome takes the `catch` branch of
`gatherPublicSentiment`: a rejected fetch, a non-2xx status, or a page
with no readable content once stripped and truncated. -/
def fetchFailure : FetchOutcome → Bool
  | .netError _ => true
  | .response ok _ body => !ok || firstChars 1500 (stripHtml body) = ""

/-- The body of the per-result `try` block of `gatherPublicSentiment`
(fetch, status check, strip and truncate, emptiness check, scoring), with
the `catch` branch producing the error mention. -/
def mentionFor (fetch : String → FetchOutcome) (result : SearchResult) : Mention :=
  match fetch result.url with
  | .netError m => .err result.title result.url m
  | .response ok status body =>
    if !ok then
      .err result.title result.url ("Failed to fetch article (" ++ toString status ++ ").")
    else
      let text := firstChars 1500 (stripHtml body)
      if text = "" then
        .err result.title result.url "No readable content found in article."
      else
        .ok result.title result.url (firstChars 320 text) (analyzeSentiment text)
          (result.source <|> extractHostname result.url) result.publishedAt

/-- The fetch loop of `gatherPublicSentiment`: it stops before processing a
result once `maxArticles` mentions have been pushed; `n` counts the
mentions pushed so far. -/
def collectMentions (fetch : String → FetchOutcome) (maxArticles : Nat) :
    List SearchResult → Nat → List Mention
  | [], _ => []
  | r :: rest, n =>
    if maxArticles ≤ n then []
    else mentionFor fetch r :: collectMentions fetch maxArticles rest (n + 1)

/-- The record returned by `gatherPublicSentiment`. -/
structure SentimentRecord where
  toolName : String
  query : String
  generatedAt : String
  totalResults : Nat
  analyzedCount : Nat
  summary : SentimentSummary
  mentions : List Mention
deriving DecidableEq

/-- The sentiment query template of `gatherPublicSentiment`:
`` `${toolName} developer feedback reviews ${new Date().getFullYear()}` ``. -/
def buildSentimentQuery (toolName : String) (year : Nat) : String :=
  toolName ++ " developer feedback reviews " ++ toString year

/-- Embeds `gatherPublicSentiment` from `server/research-agent-server.mjs`.  The
search call and the page fetches are environments (`search`, `fetch`); the
current year and the `generatedAt` timestamp are read from the clock.  A
search failure propagates; fetch failures do not. -/
def gatherPublicSentiment
    (search : String → Nat → Except String (List SearchResult))
    (fetch : String → FetchOutcome) (year : Nat) (generatedAt : String)
    (toolName : String) (maxResults maxArticles : Nat) :
    Except String SentimentRecord :=
  let sentimentQuery := buildSentimentQuery toolName year
  match search sentimentQuery maxResults with
  | .error e => .error e
  | .ok searchResults =>
    let mentions := collectMentions fetch maxArticles searchResults 0
    .ok
      { toolName := toolName
        query := sentimentQuery
        generatedAt := generatedAt
        totalResults := searchResults.length
        analyzedCount := (mentions.filter Mention.isOk).length
        summary := summariseSentiment mentions
        mentions := mentions }

/-- The result of JS `Number(value)` on an arbitrary input: a finite double
(as a rational), `NaN` (every non-numeric input), or an infinity.
`Number.isFinite` holds exactly on the `finite` case. -/
inductive JSNumber where
  | finite (q : ℚ)
  | nan
  | posInf
  | negInf

/-- Embeds `normalizeNumber` from `server/research-agent-server.mjs`: non-finite
inputs give the fallback, finite inputs are floored and clamped into
`[lo, hi]` (the code's `min`/`max` options, default `1` and
`MAX_RESULTS_CAP = 10`). -/
def normalizeNumber (value : JSNumber) (fallback lo hi : Int) : Int :=
  match value with
  | .finite q =>
    let intValue := ⌊q⌋
    if intValue < lo then lo
    else if intValue > hi then hi
    else intValue
  | _ => fallback

/-- Modelled from the spec: the Search Provider Adapter's ordered provider
fallback (spec §4.3).  The repository's multi-provider search tool — the
Python backend's web-search module with Tavily first and DuckDuckGo as the
free fallback, described by `backend/REAL_WEB_SEARCH.md` and the README —
is not among the sources under `src/`; the only search code there is the
single-provider `performSearch` dispatcher of the MCP server.  Per the
spec: providers are tried in a fixed preference order; if one errors, the
same query is retried against the next in order; the response is tagged
with the name of the provider that ultimately served it. -/
def searchWithFallback
    (providers : List (String × (String → Nat → Except String (List SearchResult))))
    (query : String) (maxResults : Nat) :
    Except String (String × List SearchResult) :=
  match providers with
  | [] => .error "all search providers failed"
  | (name, run) :: rest =>
    match run query maxResults with
    | .ok results => .ok (name, results)
    | .error _ => searchWithFallback rest query maxResults

/-- A concrete search result used to instantiate the environment. -/
def resultA : SearchResult :=
  { title := "A", url := "https://example.com/a", snippet := "", score := none,
    publishedAt := none, source := none }

/-- A second concrete result sharing `resultA`'s URL. -/
def resultB : SearchResult :=
  { title := "B", url := "https://example.com/a", snippet := "", score := none,
    publishedAt := none, source := none }

/-- A fetch environment in which every page fetch fails on the network. -/
def fetchFail : String → FetchOutcome := fun _ => FetchOutcome.netError "network down"

/-- A fetch environment in which every page fetch returns a readable page. -/
def fetchPage : String → FetchOutcome :=
  fun _ => FetchOutcome.response true 200 "Great tool, excellent and helpful!"

/-- A search environment returning the single result `resultA`. -/
def searchOne : String → Nat → Except String (List SearchResult) :=
  fun _ _ => Except.ok [resultA]

/-- A search environment returning two results with the same URL. -/
def searchDup : String → Nat → Except String (List SearchResult) :=
  fun _ _ => Except.ok [resultA, resultB]

/-- Junk record for the impossible error branches of concrete runs. -/
def emptyRecord : SentimentRecord :=
  { toolName := "", query := "", generatedAt := "", totalResults := 0,
    analyzedCount := 0,
    summary := { averageScore := 0, averageNormalizedScore := 0,
                 distribution := ⟨0, 0, 0⟩, rating := "" },
    mentions := [] }

/-- The record produced when the search succeeds and every fetch fails. -/
def recordAllFail : SentimentRecord :=
  match gatherPublicSentiment searchOne fetchFail 2025 "t" "Cursor" 6 3 with
  | .ok r => r
  | .error _ => emptyRecord

/-- The record produced from two search results with the same URL. -/
def recordDup : SentimentRecord :=
  match gatherPublicSentiment searchDup fetchFail 2025 "t" "Cursor" 6 3 with
  | .ok r => r
  | .error _ => emptyRecord

/-- The record produced when the search and the page fetch both succeed. -/
def recordOk : SentimentRecord :=
  match gatherPublicSentiment searchOne fetchPage 2025 "t" "Cursor" 6 3 with
  | .ok r => r
  | .error _ => emptyRecord

/-- A concrete primary provider that always errors. -/
def primaryDown : String → Nat → Except String (List SearchResult) :=
  fun _ _ => Except.error "auth failure"

/-- A concrete secondary provider that always succeeds. -/
def secondaryUp : String → Nat → Except String (List SearchResult) :=
  fun _ _ => Except.ok [resultA]

/-- A concrete raw Tavily item. -/
def tavilyItemA : TavilyItem :=
  { title := some "A", url := "https://example.com/a", content := some "text",
    snippet := none, score := none, publishedDate := none, date := none,
    source := none, author := none }

/-- A successful Tavily exchange carrying three raw items. -/
def replyOk : TavilyReply :=
  TavilyReply.response true 200 "" (some [tavilyItemA, tavilyItemA, tavilyItemA])

/-- The search results of the concrete Tavily exchange capped at 2. -/
def tavilyOut : List SearchResult :=
  match tavilySearch (some "k") replyOk "q" 2 with
  | .ok rs => rs
  | .error _ => []

example : tokenize "Great, well-designed tool!" = ["great", "well", "designed", "tool"] := by decide

example : stripHtml "<p>Hello <b>world</b></p> <script>var x = 1;</script>ok" =
    "Hello world ok" := by decide

example : stripHtml "  Plain   text. " = "Plain text." := by decide

example : stripHtml "<style>p .a</style>X<SCRIPT a=b>zz</ScRiPt>Y<br/>" = "X Y" := by decide

theorem classifyTokens_positive (ts : List String) : ∀ p n hs,
    (classifyTokens ts (p, n, hs)).1 =
      p + ts.countP (fun t => decide (t ∈ positiveWords)) := by
  induction ts with
  | nil => intro p n hs; simp [classifyTokens]
  | cons t ts ih =>
    intro p n hs
    by_cases hp : t ∈ positiveWords
    · rw [classifyTokens, if_pos hp, ih, List.countP_cons]
      simp [hp]
      try omega
    · by_cases hn : t ∈ negativeWords
      · rw [classifyTokens, if_neg hp, if_pos hn, ih, List.countP_cons]
        simp [hp]
        try omega
      · rw [classifyTokens, if_neg hp, if_neg hn, ih, List.countP_cons]
        simp [hp]
        try omega

theorem classifyTokens_negative (ts : List String) : ∀ p n hs,
    (classifyTokens ts (p, n, hs)).2.1 =
      n + ts.countP (fun t => decide (t ∉ positiveWords ∧ t ∈ negativeWords)) := by
  induction ts with
  | nil => intro p n hs; simp [classifyTokens]
  | cons t ts ih =>
    intro p n hs
    by_cases hp : t ∈ positiveWords
    · have hd : ¬(t ∉ positiveWords ∧ t ∈ negativeWords) := fun h => h.1 hp
      rw [classifyTokens, if_pos hp, ih, List.countP_cons]
      simp [hd]
      try omega
    · by_cases hn : t ∈ negativeWords
      · have hd : t ∉ positiveWords ∧ t ∈ negativeWords := ⟨hp, hn⟩
        rw [classifyTokens, if_neg hp, if_pos hn, ih, List.countP_cons]
        simp [hd]
        try omega
      · have hd : ¬(t ∉ positiveWords ∧ t ∈ negativeWords) := fun h => hn h.2
        rw [classifyTokens, if_neg hp, if_neg hn, ih, List.countP_cons]
        simp [hd]
        try omega

theorem classifyTokens_sum_le (ts : List String) : ∀ p n hs,
    (classifyTokens ts (p, n, hs)).1 + (classifyTokens ts (p, n, hs)).2.1 ≤
      p + n + ts.length := by
  induction ts with
  | nil => intro p n hs; simp [classifyTokens]
  | cons t ts ih =>
    intro p n hs
    by_cases hp : t ∈ positiveWords
    · simp only [classifyTokens, if_pos hp, List.length_cons]
      have := ih (p + 1) n (hs ++ [⟨t, "positive"⟩])
      omega
    · by_cases hn : t ∈ negativeWords
      · simp only [classifyTokens, if_neg hp, if_pos hn, List.length_cons]
        have := ih p (n + 1) (hs ++ [⟨t, "negative"⟩])
        omega
      · simp only [classifyTokens, if_neg hp, if_neg hn, List.length_cons]
        have := ih p n hs
        omega

theorem classifyTokens_highlights (ts : List String) : ∀ p n hs h,
    h ∈ (classifyTokens ts (p, n, hs)).2.2 → h ∈ hs ∨ h.token ∈ ts := by
  induction ts with
  | nil =>
    intro p n hs h hm
    simp only [classifyTokens] at hm
    exact Or.inl hm
  | cons t ts ih =>
    intro p n hs h hm
    by_cases hp : t ∈ positiveWords
    · rw [classifyTokens, if_pos hp] at hm
      rcases ih _ _ _ _ hm with hin | htok
      · rcases List.mem_append.mp hin with h1 | h2
        · exact Or.inl h1
        · simp only [List.mem_singleton] at h2
          subst h2
          exact Or.inr (List.mem_cons_self _ _)
      · exact Or.inr (List.mem_cons_of_mem _ htok)
    · by_cases hn : t ∈ negativeWords
      · rw [classifyTokens, if_neg hp, if_pos hn] at hm
        rcases ih _ _ _ _ hm with hin | htok
        · rcases List.mem_append.mp hin with h1 | h2
          · exact Or.inl h1
          · simp only [List.mem_singleton] at h2
            subst h2
            exact Or.inr (List.mem_cons_self _ _)
        · exact Or.inr (List.mem_cons_of_mem _ htok)
      · rw [classifyTokens, if_neg hp, if_neg hn] at hm
        rcases ih _ _ _ _ hm with hin | htok
        · exact Or.inl hin
        · exact Or.inr (List.mem_cons_of_mem _ htok)

theorem negative_not_positive : ∀ t : String, t ∈ negativeWords → t ∉ positiveWords := by
  intro t ht
  fin_cases ht <;> decide

theorem negCount_eq (ts : List String) :
    ts.countP (fun t => decide (t ∉ positiveWords ∧ t ∈ negativeWords)) =
      ts.countP (fun t => decide (t ∈ negativeWords)) := by
  have hfun : (fun t : String => decide (t ∉ positiveWords ∧ t ∈ negativeWords)) =
      fun t => decide (t ∈ negativeWords) := by
    funext t
    by_cases hn : t ∈ negativeWords
    · simp [hn, negative_not_positive t hn]
    · simp [hn]
  rw [hfun]

theorem splitRuns_wordChars : ∀ (cs cur : List Char), (∀ c ∈ cur, isWordChar c = true) →
    ∀ t ∈ splitRuns cs cur, ∀ c ∈ t, isWordChar c = true := by
  intro cs
  induction cs with
  | nil =>
    intro cur hcur t ht c hc
    rw [splitRuns] at ht
    split at ht
    · simp at ht
    · simp only [List.mem_singleton] at ht
      subst ht
      exact hcur c (List.mem_reverse.mp hc)
  | cons a rest ih =>
    intro cur hcur t ht c hc
    rw [splitRuns] at ht
    by_cases ha : isWordChar a = true
    · rw [if_pos ha] at ht
      refine ih (a :: cur) ?_ t ht c hc
      intro x hx
      rcases List.mem_cons.mp hx with rfl | hx
      · exact ha
      · exact hcur x hx
    · rw [if_neg ha] at ht
      split at ht
      · exact ih [] (by simp) t ht c hc
      · rcases List.mem_cons.mp ht with rfl | ht
        · exact hcur c (List.mem_reverse.mp hc)
        · exact ih [] (by simp) t ht c hc

theorem tokenize_wordChars (text : String) :
    ∀ t ∈ tokenize text, ∀ c ∈ t.data, isWordChar c = true := by
  intro t ht c hc
  simp only [tokenize, List.mem_map] at ht
  obtain ⟨cs, hcs, rfl⟩ := ht
  exact splitRuns_wordChars _ [] (by simp) cs hcs c hc

theorem wellDesigned_not_token (text : String) : "well-designed" ∉ tokenize text := by
  intro h
  have := tokenize_wordChars text _ h '-' (by decide)
  exact absurd this (by decide)

theorem sentiments_length (entries : List Mention) :
    (entries.filterMap Mention.sentimentOf).length = (entries.filter Mention.isOk).length := by
  induction entries with
  | nil => simp
  | cons m ms ih =>
    cases m <;>
      simp [Mention.sentimentOf, Mention.isOk, List.filterMap_cons, List.filter_cons, ih]

theorem mentionFor_url (fetch : String → FetchOutcome) (r : SearchResult) :
    (mentionFor fetch r).url = r.url := by
  cases hf : fetch r.url with
  | netError m => simp [mentionFor, hf, Mention.url]
  | response ok status body =>
    simp only [mentionFor, hf]
    split_ifs <;> simp [Mention.url]

theorem mentionFor_err (fetch : String → FetchOutcome) (r : SearchResult)
    (h : fetchFailure (fetch r.url) = true) :
    ∃ e, mentionFor fetch r = Mention.err r.title r.url e := by
  cases hf : fetch r.url with
  | netError m => exact ⟨m, by simp [mentionFor, hf]⟩
  | response ok status body =>
    rw [hf, fetchFailure] at h
    by_cases hok : ok
    · have htext : firstChars 1500 (stripHtml body) = "" := by
        simp [hok] at h
        exact h
      exact ⟨"No readable content found in article.", by simp [mentionFor, hf, hok, htext]⟩
    · exact ⟨"Failed to fetch article (" ++ toString status ++ ").",
        by simp [mentionFor, hf, hok]⟩

theorem analyzeSentiment_label (text : String) :
    (analyzeSentiment text).label = "positive" ∨ (analyzeSentiment text).label = "neutral" ∨
      (analyzeSentiment text).label = "negative" := by
  simp only [analyzeSentiment]
  split_ifs <;> simp

theorem mentionFor_sentiment (fetch : String → FetchOutcome) (r : SearchResult)
    (s : SentimentResult) (h : (mentionFor fetch r).sentimentOf = some s) :
    s.label = "positive" ∨ s.label = "neutral" ∨ s.label = "negative" := by
  cases hf : fetch r.url with
  | netError m => simp [mentionFor, hf, Mention.sentimentOf] at h
  | response ok status body =>
    by_cases hok : ok
    · by_cases htext : firstChars 1500 (stripHtml body) = ""
      · have hm : mentionFor fetch r =
            Mention.err r.title r.url "No readable content found in article." := by
          simp [mentionFor, hf, hok, htext]
        rw [hm] at h
        simp [Mention.sentimentOf] at h
      · have hm : mentionFor fetch r =
            Mention.ok r.title r.url (firstChars 320 (firstChars 1500 (stripHtml body)))
              (analyzeSentiment (firstChars 1500 (stripHtml body)))
              (r.source <|> extractHostname r.url) r.publishedAt := by
          simp [mentionFor, hf, hok, htext]
        rw [hm] at h
        simp only [Mention.sentimentOf] at h
        cases h
        exact analyzeSentiment_label _
    · have hm : mentionFor fetch r =
          Mention.err r.title r.url ("Failed to fetch article (" ++ toString status ++ ").") := by
        simp [mentionFor, hf, hok]
      rw [hm] at h
      simp [Mention.sentimentOf] at h

theorem sumSentiments_dist (ss : List SentimentResult) : ∀ sc no p ne ng,
    (∀ s ∈ ss, s.label = "positive" ∨ s.label = "neutral" ∨ s.label = "negative") →
    (sumSentiments ss (sc, no, p, ne, ng)).2.2.1 +
        (sumSentiments ss (sc, no, p, ne, ng)).2.2.2.1 +
        (sumSentiments ss (sc, no, p, ne, ng)).2.2.2.2 =
      p + ne + ng + ss.length := by
  induction ss with
  | nil => intro sc no p ne ng _; simp [sumSentiments]
  | cons s ss ih =>
    intro sc no p ne ng hlab
    have htail : ∀ x ∈ ss, x.label = "positive" ∨ x.label = "neutral" ∨
        x.label = "negative" := fun x hx => hlab x (List.mem_cons_of_mem _ hx)
    rw [sumSentiments, ih _ _ _ _ _ htail]
    have h1 : (if s.label = "positive" then 1 else 0) +
        (if s.label = "neutral" then 1 else 0) +
        (if s.label = "negative" then 1 else 0) = 1 := by
      rcases hlab s (List.mem_cons_self _ _) with h | h | h <;> simp [h]
    simp only [List.length_cons]
    omega

theorem summarise_eq_filter (entries : List Mention) :
    summariseSentiment entries = summariseSentiment (entries.filter Mention.isOk) := by
  have hval : (entries.filter Mention.isOk).filterMap Mention.sentimentOf =
      entries.filterMap Mention.sentimentOf := by
    induction entries with
    | nil => simp
    | cons m ms ih => cases m <;> simp [Mention.isOk, Mention.sentimentOf, ih]
  unfold summariseSentiment
  rw [hval]

theorem summarise_rating_eq (entries : List Mention) :
    (summariseSentiment entries).rating =
      if (entries.filterMap Mention.sentimentOf).length = 0 then "unknown"
      else if (summariseSentiment entries).averageNormalizedScore > 0.02 then "positive"
      else if (summariseSentiment entries).averageNormalizedScore < -0.02 then "negative"
      else "neutral" := by
  by_cases h : (entries.filterMap Mention.sentimentOf).length = 0
  · simp [summariseSentiment, h]
  · simp [summariseSentiment, h]

theorem summarise_rating_unknown (entries : List Mention) :
    (summariseSentiment entries).rating = "unknown" ↔
      (entries.filter Mention.isOk).length = 0 := by
  rw [← sentiments_length, summarise_rating_eq]
  by_cases h : (entries.filterMap Mention.sentimentOf).length = 0
  · simp [h]
  · rw [if_neg h]
    constructor
    · intro hr
      split_ifs at hr <;> exact absurd hr (by decide)
    · intro hr
      exact absurd hr h

theorem summarise_rating_thresholds (entries : List Mention)
    (h : (entries.filter Mention.isOk).length ≠ 0) :
    (summariseSentiment entries).rating =
      (if (summariseSentiment entries).averageNormalizedScore > 0.02 then "positive"
       else if (summariseSentiment entries).averageNormalizedScore < -0.02 then "negative"
       else "neutral") := by
  rw [← sentiments_length] at h
  rw [summarise_rating_eq, if_neg h]

theorem collectMentions_eq (fetch : String → FetchOutcome) (maxArticles : Nat) :
    ∀ (rs : List SearchResult) (n : Nat),
      collectMentions fetch maxArticles rs n =
        (rs.take (maxArticles - n)).map (mentionFor fetch) := by
  intro rs
  induction rs with
  | nil => intro n; simp [collectMentions]
  | cons r rest ih =>
    intro n
    rw [collectMentions]
    by_cases h : maxArticles ≤ n
    · rw [if_pos h]
      have h0 : maxArticles - n = 0 := by omega
      simp [h0]
    · rw [if_neg h, ih (n + 1)]
      have h1 : maxArticles - n = (maxArticles - (n + 1)) + 1 := by omega
      rw [h1]
      simp [List.take_succ_cons]

theorem gather_ok (search : String → Nat → Except String (List SearchResult))
    (fetch : String → FetchOutcome) (year : Nat) (generatedAt : String)
    (toolName : String) (maxResults maxArticles : Nat) (record : SentimentRecord)
    (h : gatherPublicSentiment search fetch year generatedAt toolName maxResults
        maxArticles = .ok record) :
    ∃ rs, search (buildSentimentQuery toolName year) maxResults = .ok rs ∧
      record =
        { toolName := toolName
          query := buildSentimentQuery toolName year
          generatedAt := generatedAt
          totalResults := rs.length
          analyzedCount :=
            (((rs.take maxArticles).map (mentionFor fetch)).filter Mention.isOk).length
          summary := summariseSentiment ((rs.take maxArticles).map (mentionFor fetch))
          mentions := (rs.take maxArticles).map (mentionFor fetch) } := by
  simp only [gatherPublicSentiment] at h
  cases hs : search (buildSentimentQuery toolName year) maxResults with
  | error e => rw [hs] at h; cases h
  | ok rs =>
    rw [hs] at h
    refine ⟨rs, rfl, ?_⟩
    cases h
    rw [collectMentions_eq]
    simp

theorem analyzeSentiment_score_eq (text : String) :
    (analyzeSentiment text).score =
      ((classifyTokens (tokenize text) (0, 0, [])).1 : Int) -
        ((classifyTokens (tokenize text) (0, 0, [])).2.1 : Int) := rfl

theorem analyzeSentiment_positive_eq (text : String) :
    (analyzeSentiment text).positive = (classifyTokens (tokenize text) (0, 0, [])).1 := rfl

theorem analyzeSentiment_negative_eq (text : String) :
    (analyzeSentiment text).negative = (classifyTokens (tokenize text) (0, 0, [])).2.1 := rfl

theorem analyzeSentiment_highlights_eq (text : String) :
    (analyzeSentiment text).highlights = (classifyTokens (tokenize text) (0, 0, [])).2.2 := rfl

theorem analyzeSentiment_norm_eq (text : String) :
    (analyzeSentiment text).normalizedScore =
      ((analyzeSentiment text).score : ℚ) /
        ((if (tokenize text).length = 0 then 1 else (tokenize text).length : Nat) : ℚ) := rfl

theorem analyzeSentiment_label_ite (text : String) :
    (analyzeSentiment text).label =
      if (analyzeSentiment text).normalizedScore > 0.02 then "positive"
      else if (analyzeSentiment text).normalizedScore < -0.02 then "negative"
      else "neutral" := rfl

/-- Claim C2: for every input text the sentiment scorer returns
`score = positiveCount − negativeCount` (counts of positive- and
negative-lexicon tokens), `normalizedScore = score / max(tokenCount, 1)`
over the tokens obtained by lower-casing and splitting on non-alphanumeric
boundaries (`tokenize`), and the label is `"positive"` exactly when
`normalizedScore > 0.02`, `"negative"` exactly when it is `< -0.02`, and
`"neutral"` otherwise. -/
theorem C2_sentiment_formula (text : String) :
    (analyzeSentiment text).score =
        ((tokenize text).countP (fun t => decide (t ∈ positiveWords)) : Int) -
          ((tokenize text).countP (fun t => decide (t ∈ negativeWords)) : Int) ∧
      (analyzeSentiment text).normalizedScore =
        ((analyzeSentiment text).score : ℚ) / (max (tokenize text).length 1 : ℚ) ∧
      ((analyzeSentiment text).label = "positive" ↔
        (analyzeSentiment text).normalizedScore > 0.02) ∧
      ((analyzeSentiment text).label = "negative" ↔
        (analyzeSentiment text).normalizedScore < -0.02) ∧
      ((analyzeSentiment text).label = "neutral" ↔
        ¬((analyzeSentiment text).normalizedScore > 0.02) ∧
          ¬((analyzeSentiment text).normalizedScore < -0.02)) := by
  refine ⟨?_, ?_, ?_⟩
  · rw [analyzeSentiment_score_eq, classifyTokens_positive, classifyTokens_negative,
      negCount_eq]
    simp
  · rw [analyzeSentiment_norm_eq]
    have hden : (if (tokenize text).length = 0 then 1 else (tokenize text).length) =
        max (tokenize text).length 1 := by
      rcases Nat.eq_zero_or_pos (tokenize text).length with h | h
      · simp [h]
      · rw [if_neg (by omega), Nat.max_eq_left (by omega)]
    rw [hden]
    norm_cast
  · rw [analyzeSentiment_label_ite]
    split_ifs with h1 h2
    · exact ⟨⟨fun _ => h1, fun _ => rfl⟩,
        ⟨fun hc => absurd hc (by decide), fun hlt => absurd h1 (by linarith)⟩,
        ⟨fun hc => absurd hc (by decide), fun hc => absurd h1 hc.1⟩⟩
    · exact ⟨⟨fun hc => absurd hc (by decide), fun hgt => absurd hgt h1⟩,
        ⟨fun _ => h2, fun _ => rfl⟩,
        ⟨fun hc => absurd hc (by decide), fun hc => absurd h2 hc.2⟩⟩
    · exact ⟨⟨fun hc => absurd hc (by decide), fun hgt => absurd hgt h1⟩,
        ⟨fun hc => absurd hc (by decide), fun hlt => absurd hlt h2⟩,
        ⟨fun _ => ⟨h1, h2⟩, fun _ => rfl⟩⟩

/-- Claim C3: the normalized score always lies in `[-1, 1]`, and the empty
text yields normalized score `0`. -/
theorem C3_normalized_bounds (text : String) :
    -1 ≤ (analyzeSentiment text).normalizedScore ∧
      (analyzeSentiment text).normalizedScore ≤ 1 ∧
      (analyzeSentiment "").normalizedScore = 0 := by
  have hsum := classifyTokens_sum_le (tokenize text) 0 0 []
  set P := (classifyTokens (tokenize text) (0, 0, [])).1 with hP
  set N := (classifyTokens (tokenize text) (0, 0, [])).2.1 with hN
  set L := (tokenize text).length with hL
  have hbound : P + N ≤ L := by omega
  have hup : (P : Int) - N ≤ ((if L = 0 then 1 else L : Nat) : Int) := by
    by_cases h : L = 0
    · rw [if_pos h]
      omega
    · rw [if_neg h]
      omega
  have hdown : -(((if L = 0 then 1 else L : Nat) : Int)) ≤ (P : Int) - N := by
    by_cases h : L = 0
    · rw [if_pos h]
      omega
    · rw [if_neg h]
      omega
  have hposT : (0 : ℚ) < ((if L = 0 then 1 else L : Nat) : ℚ) := by
    by_cases h : L = 0
    · rw [if_pos h]
      norm_num
    · rw [if_neg h]
      exact_mod_cast Nat.pos_of_ne_zero h
  have hnorm : (analyzeSentiment text).normalizedScore =
      (((P : Int) - N : Int) : ℚ) / ((if L = 0 then 1 else L : Nat) : ℚ) := by
    rw [analyzeSentiment_norm_eq, analyzeSentiment_score_eq]
  refine ⟨?_, ?_, ?_⟩
  · rw [hnorm, le_div_iff hposT]
    have : (-(((if L = 0 then 1 else L : Nat) : Int)) : ℚ) ≤ (((P : Int) - N : Int) : ℚ) := by
      exact_mod_cast hdown
    push_cast at this ⊢
    linarith
  · rw [hnorm, div_le_one hposT]
    exact_mod_cast hup
  · have h : tokenize "" = [] := by decide
    rw [analyzeSentiment_norm_eq, analyzeSentiment_score_eq, h]
    simp [classifyTokens]

/-- Claim C1: if the primary search provider errors on a query (auth
failure, quota, network), the adapter retries the same query against the
next provider in the fixed preference order, so that when the primary
errors and the secondary succeeds the adapter returns the secondary's
results tagged with the secondary's provider name.  Settled against
`searchWithFallback`, which is modelled from the spec because the
repository's multi-provider adapter is not among the sources under
`src/` (see its doc comment). -/
theorem C1_provider_fallback (primaryName secondaryName : String)
    (primary secondary : String → Nat → Except String (List SearchResult))
    (rest : List (String × (String → Nat → Except String (List SearchResult))))
    (query : String) (maxResults : Nat) (e : String) (results : List SearchResult)
    (hp : primary query maxResults = Except.error e)
    (hs : secondary query maxResults = Except.ok results) :
    searchWithFallback ((primaryName, primary) :: (secondaryName, secondary) :: rest)
        query maxResults = Except.ok (secondaryName, results) := by
  simp [searchWithFallback, hp, hs]

/-- Witness for C1 at a concrete erroring primary and succeeding secondary. -/
theorem C1_provider_fallback_witness :
    searchWithFallback [("tavily", primaryDown), ("duckduckgo", secondaryUp)]
        "agentic tools" 5 = Except.ok ("duckduckgo", [resultA]) :=
  C1_provider_fallback "tavily" "duckduckgo" primaryDown secondaryUp []
    "agentic tools" 5 "auth failure" [resultA] rfl rfl

theorem summarise_dist_sum (entries : List Mention)
    (h : ∀ m ∈ entries, ∀ s, m.sentimentOf = some s →
      s.label = "positive" ∨ s.label = "neutral" ∨ s.label = "negative") :
    (summariseSentiment entries).distribution.positive +
        (summariseSentiment entries).distribution.neutral +
        (summariseSentiment entries).distribution.negative =
      (entries.filter Mention.isOk).length := by
  rw [← sentiments_length]
  unfold summariseSentiment
  by_cases h0 : (entries.filterMap Mention.sentimentOf).length = 0
  · rw [if_pos h0]
    simp [h0]
  · rw [if_neg h0]
    have hl : ∀ s ∈ entries.filterMap Mention.sentimentOf,
        s.label = "positive" ∨ s.label = "neutral" ∨ s.label = "negative" := by
      intro s hsm
      rw [List.mem_filterMap] at hsm
      obtain ⟨m, hm, hms⟩ := hsm
      exact h m hm s hms
    have hd := sumSentiments_dist (entries.filterMap Mention.sentimentOf) 0 0 0 0 0 hl
    simpa using hd

/-- Claim C4: the aggregate summary derives the tool-level rating from the
average normalized score with the same thresholds as per-mention labels
(`> 0.02` positive, `< -0.02` negative, else neutral) and returns
`"unknown"` exactly when zero analyzable (error-free) mentions exist; when
every fetch for a tool fails, the record has `analyzedCount = 0` and
rating `"unknown"`. -/
theorem C4_aggregate_rating :
    (∀ entries : List Mention,
        ((summariseSentiment entries).rating = "unknown" ↔
          (entries.filter Mention.isOk).length = 0)) ∧
      (∀ entries : List Mention, (entries.filter Mention.isOk).length ≠ 0 →
        (summariseSentiment entries).rating =
          (if (summariseSentiment entries).averageNormalizedScore > 0.02 then "positive"
           else if (summariseSentiment entries).averageNormalizedScore < -0.02 then "negative"
           else "neutral")) ∧
      (∀ (search : String → Nat → Except String (List SearchResult))
        (fetch : String → FetchOutcome) (year : Nat) (generatedAt toolName : String)
        (maxResults maxArticles : Nat) (record : SentimentRecord),
        (∀ u, fetchFailure (fetch u) = true) →
        gatherPublicSentiment search fetch year generatedAt toolName maxResults
            maxArticles = Except.ok record →
        record.analyzedCount = 0 ∧ record.summary.rating = "unknown") := by
  refine ⟨summarise_rating_unknown, summarise_rating_thresholds, ?_⟩
  intro search fetch year generatedAt toolName maxResults maxArticles record hfail hg
  obtain ⟨rs, hs, hrec⟩ := gather_ok search fetch year generatedAt toolName maxResults
    maxArticles record hg
  subst hrec
  have hnil : ((rs.take maxArticles).map (mentionFor fetch)).filter Mention.isOk = [] := by
    rw [List.filter_eq_nil_iff]
    intro m hm
    obtain ⟨r, hr, rfl⟩ := List.mem_map.mp hm
    obtain ⟨e, he⟩ := mentionFor_err fetch r (hfail r.url)
    rw [he]
    simp [Mention.isOk]
  constructor
  · show (((rs.take maxArticles).map (mentionFor fetch)).filter Mention.isOk).length = 0
    rw [hnil]
    rfl
  · show (summariseSentiment ((rs.take maxArticles).map (mentionFor fetch))).rating =
      "unknown"
    rw [summarise_rating_unknown, hnil]
    rfl

/-- Witness for C4 on a concrete run in which the search succeeds and every
fetch fails. -/
theorem C4_aggregate_rating_witness :
    recordAllFail.analyzedCount = 0 ∧ recordAllFail.summary.rating = "unknown" :=
  C4_aggregate_rating.2.2 searchOne fetchFail 2025 "t" "Cursor" 6 3 recordAllFail
    (fun _ => rfl) rfl

/-- Claim C5: a fetch failure produces a mention carrying an error string
instead of aborting the tool's analysis (the gather still returns a record
whose mention list retains one mention per processed result), and the
aggregation excludes errored mentions from the averages and the label
distribution while retaining them in the mention list (the summary is
unchanged by dropping the errored mentions). -/
theorem C5_error_mentions :
    (∀ entries : List Mention,
        summariseSentiment entries = summariseSentiment (entries.filter Mention.isOk)) ∧
      (∀ (fetch : String → FetchOutcome) (r : SearchResult),
        fetchFailure (fetch r.url) = true →
        ∃ e, mentionFor fetch r = Mention.err r.title r.url e) ∧
      (∀ (search : String → Nat → Except String (List SearchResult))
        (fetch : String → FetchOutcome) (year : Nat) (generatedAt toolName : String)
        (maxResults maxArticles : Nat) (rs : List SearchResult),
        search (buildSentimentQuery toolName year) maxResults = Except.ok rs →
        ∃ record,
          gatherPublicSentiment search fetch year generatedAt toolName maxResults
              maxArticles = Except.ok record ∧
            record.mentions = (rs.take maxArticles).map (mentionFor fetch)) := by
  refine ⟨summarise_eq_filter, mentionFor_err, ?_⟩
  intro search fetch year generatedAt toolName maxResults maxArticles rs hs
  refine ⟨{ toolName := toolName, query := buildSentimentQuery toolName year,
            generatedAt := generatedAt, totalResults := rs.length,
            analyzedCount :=
              ((collectMentions fetch maxArticles rs 0).filter Mention.isOk).length,
            summary := summariseSentiment (collectMentions fetch maxArticles rs 0),
            mentions := collectMentions fetch maxArticles rs 0 }, ?_, ?_⟩
  · simp only [gatherPublicSentiment, hs]
  · show (collectMentions fetch maxArticles rs 0 : List Mention) =
      (rs.take maxArticles).map (mentionFor fetch)
    rw [collectMentions_eq]
    simp

/-- Witness for C5: the concrete failing fetch yields an error mention, and
the concrete run returns a record listing that mention. -/
theorem C5_error_mentions_witness :
    (∃ e, mentionFor fetchFail resultA = Mention.err resultA.title resultA.url e) ∧
      ∃ record,
        gatherPublicSentiment searchOne fetchFail 2025 "t" "Cursor" 6 3 =
            Except.ok record ∧
          record.mentions = ([resultA].take 3).map (mentionFor fetchFail) :=
  ⟨C5_error_mentions.2.1 fetchFail resultA rfl,
    C5_error_mentions.2.2 searchOne fetchFail 2025 "t" "Cursor" 6 3 [resultA] rfl⟩

/-- Counterexample to claim C6 ("no two mentions in a record have the same
URL"): when the search returns two results with the same URL — which
`gatherPublicSentiment` never deduplicates — the record carries two
mentions with that URL. -/
theorem C6_counterexample :
    gatherPublicSentiment searchDup fetchFail 2025 "t" "Cursor" 6 3 =
        Except.ok recordDup ∧
      ¬ List.Pairwise (fun a b : Mention => a.url ≠ b.url) recordDup.mentions := by
  constructor
  · rfl
  · intro hpw
    have hm : recordDup.mentions =
        [Mention.err "A" "https://example.com/a" "network down",
         Mention.err "B" "https://example.com/a" "network down"] := rfl
    rw [hm] at hpw
    rcases hpw with _ | ⟨h1, _⟩
    exact h1 _ (List.mem_cons_self _ _) rfl

/-- Claim C6 amended: the code never deduplicates mention URLs; it emits one
mention per processed search result, so the mentions of a record have
pairwise distinct URLs provided the underlying search results do. -/
theorem C6_amended_url_unique
    (search : String → Nat → Except String (List SearchResult))
    (fetch : String → FetchOutcome) (year : Nat) (generatedAt toolName : String)
    (maxResults maxArticles : Nat) (record : SentimentRecord)
    (hg : gatherPublicSentiment search fetch year generatedAt toolName maxResults
        maxArticles = Except.ok record)
    (hd : ∀ rs, search (buildSentimentQuery toolName year) maxResults = Except.ok rs →
      List.Pairwise (fun a b : SearchResult => a.url ≠ b.url) rs) :
    List.Pairwise (fun a b : Mention => a.url ≠ b.url) record.mentions := by
  obtain ⟨rs, hs, hrec⟩ := gather_ok search fetch year generatedAt toolName maxResults
    maxArticles record hg
  subst hrec
  have hd' : List.Pairwise (fun a b : SearchResult => a.url ≠ b.url)
      (rs.take maxArticles) := (hd rs hs).sublist (List.take_sublist _ _)
  refine hd'.map (mentionFor fetch) ?_
  intro a b hab
  rw [mentionFor_url, mentionFor_url]
  exact hab

/-- Witness for the amended C6 at a concrete single-result run. -/
theorem C6_amended_url_unique_witness :
    List.Pairwise (fun a b : Mention => a.url ≠ b.url) recordAllFail.mentions :=
  C6_amended_url_unique searchOne fetchFail 2025 "t" "Cursor" 6 3 recordAllFail rfl
    (fun rs hrs => by
      cases hrs
      exact List.pairwise_singleton _ _)

/-- Claim C7: every requested `maxResults` value, numeric or not, is
normalized into `[1, 10]`, every requested `maxArticles` value into
`[1, 5]` (with the in-range defaults 6 and 3), the search returns at most
`maxResults` results, and a sentiment record carries at most `maxArticles`
mentions. -/
theorem C7_bounds :
    (∀ v : JSNumber, 1 ≤ normalizeNumber v 6 1 10 ∧ normalizeNumber v 6 1 10 ≤ 10) ∧
      (∀ v : JSNumber, 1 ≤ normalizeNumber v 3 1 5 ∧ normalizeNumber v 3 1 5 ≤ 5) ∧
      (∀ (apiKey : Option String) (reply : TavilyReply) (query : String)
        (maxResults : Nat) (rs : List SearchResult),
        tavilySearch apiKey reply query maxResults = Except.ok rs →
        rs.length ≤ maxResults) ∧
      (∀ (search : String → Nat → Except String (List SearchResult))
        (fetch : String → FetchOutcome) (year : Nat) (generatedAt toolName : String)
        (maxResults maxArticles : Nat) (record : SentimentRecord),
        gatherPublicSentiment search fetch year generatedAt toolName maxResults
            maxArticles = Except.ok record →
        record.mentions.length ≤ maxArticles) := by
  refine ⟨?_, ?_, ?_, ?_⟩
  · intro v
    match v with
    | .finite q =>
      simp only [normalizeNumber]
      split_ifs <;> omega
    | .nan => exact ⟨by decide, by decide⟩
    | .posInf => exact ⟨by decide, by decide⟩
    | .negInf => exact ⟨by decide, by decide⟩
  · intro v
    match v with
    | .finite q =>
      simp only [normalizeNumber]
      split_ifs <;> omega
    | .nan => exact ⟨by decide, by decide⟩
    | .posInf => exact ⟨by decide, by decide⟩
    | .negInf => exact ⟨by decide, by decide⟩
  · intro apiKey reply query maxResults rs h
    match apiKey with
    | none => cases h
    | some k =>
      match reply with
      | .netError m => cases h
      | .response ok status bodyText raw =>
        rw [tavilySearch] at h
        by_cases hok : ok
        · simp only [hok, Bool.not_true, Bool.false_eq_true, if_false] at h
          cases h
          rw [List.length_map]
          exact List.length_take_le _ _
        · simp only [Bool.not_eq_true] at hok
          simp [hok] at h
  · intro search fetch year generatedAt toolName maxResults maxArticles record hg
    obtain ⟨rs, hs, hrec⟩ := gather_ok search fetch year generatedAt toolName
      maxResults maxArticles record hg
    subst hrec
    show ((rs.take maxArticles).map (mentionFor fetch)).length ≤ maxArticles
    rw [List.length_map]
    exact List.length_take_le _ _

/-- Witness for C7 at concrete inputs: a huge requested value clamps to 10,
the concrete Tavily exchange capped at 2 returns at most 2 results, and the
concrete record holds at most 3 mentions. -/
theorem C7_bounds_witness :
    (1 ≤ normalizeNumber (JSNumber.finite 100) 6 1 10 ∧
        normalizeNumber (JSNumber.finite 100) 6 1 10 ≤ 10) ∧
      (1 ≤ normalizeNumber JSNumber.nan 3 1 5 ∧ normalizeNumber JSNumber.nan 3 1 5 ≤ 5) ∧
      tavilyOut.length ≤ 2 ∧ recordAllFail.mentions.length ≤ 3 :=
  ⟨C7_bounds.1 (JSNumber.finite 100), C7_bounds.2.1 JSNumber.nan,
    C7_bounds.2.2.1 (some "k") replyOk "q" 2 tavilyOut rfl,
    C7_bounds.2.2.2 searchOne fetchFail 2025 "t" "Cursor" 6 3 recordAllFail rfl⟩

/-- Counterexample to claim C8 ("the sentiment query is the tool name plus
`reviews opinions` plus forum hints plus the current year"): the query
built for tool `Cursor` in 2025 is
`Cursor developer feedback reviews 2025`, which contains neither the word
`opinions` nor any forum hint such as `reddit`. -/
theorem C8_counterexample :
    buildSentimentQuery "Cursor" 2025 = "Cursor developer feedback reviews 2025" ∧
      tokenize (buildSentimentQuery "Cursor" 2025) =
        ["cursor", "developer", "feedback", "reviews", "2025"] ∧
      "opinions" ∉ tokenize (buildSentimentQuery "Cursor" 2025) ∧
      "reddit" ∉ tokenize (buildSentimentQuery "Cursor" 2025) := by
  refine ⟨rfl, ?_, ?_, ?_⟩ <;> decide

/-- Claim C8 amended: for every tool name the sentiment phase builds the
query `"{toolName} developer feedback reviews {currentYear}"` — tool name
plus the fixed phrase `developer feedback reviews` plus the current year,
with no `opinions` keyword and no forum hints. -/
theorem C8_amended_query
    (search : String → Nat → Except String (List SearchResult))
    (fetch : String → FetchOutcome) (year : Nat) (generatedAt toolName : String)
    (maxResults maxArticles : Nat) (record : SentimentRecord)
    (hg : gatherPublicSentiment search fetch year generatedAt toolName maxResults
        maxArticles = Except.ok record) :
    record.query = toolName ++ " developer feedback reviews " ++ toString year := by
  obtain ⟨rs, hs, hrec⟩ := gather_ok search fetch year generatedAt toolName maxResults
    maxArticles record hg
  rw [hrec]
  rfl

/-- Witness for the amended C8 at a concrete run. -/
theorem C8_amended_query_witness :
    recordAllFail.query = "Cursor" ++ " developer feedback reviews " ++ toString 2025 :=
  C8_amended_query searchOne fetchFail 2025 "t" "Cursor" 6 3 recordAllFail rfl

/-- Claim C9: in every record produced by `gatherPublicSentiment`,
`analyzedCount` equals the number of error-free mentions, and the label
distribution of the summary sums to `analyzedCount`. -/
theorem C9_count_invariants
    (search : String → Nat → Except String (List SearchResult))
    (fetch : String → FetchOutcome) (year : Nat) (generatedAt toolName : String)
    (maxResults maxArticles : Nat) (record : SentimentRecord)
    (hg : gatherPublicSentiment search fetch year generatedAt toolName maxResults
        maxArticles = Except.ok record) :
    record.analyzedCount = (record.mentions.filter Mention.isOk).length ∧
      record.summary.distribution.positive + record.summary.distribution.neutral +
          record.summary.distribution.negative = record.analyzedCount := by
  obtain ⟨rs, hs, hrec⟩ := gather_ok search fetch year generatedAt toolName maxResults
    maxArticles record hg
  subst hrec
  refine ⟨rfl, ?_⟩
  show (summariseSentiment ((rs.take maxArticles).map (mentionFor fetch))).distribution.positive +
      (summariseSentiment ((rs.take maxArticles).map (mentionFor fetch))).distribution.neutral +
      (summariseSentiment ((rs.take maxArticles).map (mentionFor fetch))).distribution.negative =
    (((rs.take maxArticles).map (mentionFor fetch)).filter Mention.isOk).length
  apply summarise_dist_sum
  intro m hm s hms
  obtain ⟨r, hr, rfl⟩ := List.mem_map.mp hm
  exact mentionFor_sentiment fetch r s hms

/-- Witness for C9 at a concrete run with a successfully fetched page. -/
theorem C9_count_invariants_witness :
    recordOk.analyzedCount = (recordOk.mentions.filter Mention.isOk).length ∧
      recordOk.summary.distribution.positive + recordOk.summary.distribution.neutral +
          recordOk.summary.distribution.negative = recordOk.analyzedCount :=
  C9_count_invariants searchOne fetchPage 2025 "t" "Cursor" 6 3 recordOk rfl

/-- Claim C10: tokenization splits on the hyphen, so no produced token
contains a non-alphanumeric character; hence the scorer never emits a
highlight with token `well-designed`, and that positive-lexicon entry never
contributes to `positiveCount` — the count is unchanged when
`well-designed` is removed from the lexicon. -/
theorem C10_hyphen_lexicon (text : String) :
    (∀ t ∈ tokenize text, ∀ c ∈ t.data, isWordChar c = true) ∧
      "well-designed" ∉ tokenize text ∧
      (∀ h ∈ (analyzeSentiment text).highlights, h.token ≠ "well-designed") ∧
      (analyzeSentiment text).positive =
        (tokenize text).countP
          (fun t => decide (t ∈ positiveWords.erase "well-designed")) := by
  refine ⟨tokenize_wordChars text, wellDesigned_not_token text, ?_, ?_⟩
  · intro h hm heq
    rw [analyzeSentiment_highlights_eq] at hm
    rcases classifyTokens_highlights _ _ _ _ _ hm with hin | htok
    · simp at hin
    · rw [heq] at htok
      exact wellDesigned_not_token text htok
  · have hpos : (analyzeSentiment text).positive =
        (tokenize text).countP (fun t => decide (t ∈ positiveWords)) := by
      rw [analyzeSentiment_positive_eq, classifyTokens_positive]
      simp
    rw [hpos]
    apply List.countP_congr
    intro t ht
    have hne : t ≠ "well-designed" := by
      intro he
      rw [he] at ht
      exact wellDesigned_not_token text ht
    simp [List.mem_erase_of_ne hne]

/-- Witness for C10 at a concrete text containing `well-designed`. -/
theorem C10_hyphen_lexicon_witness :
    isWordChar 'g' = true ∧
      "well-designed" ∉ tokenize "great well-designed tool" ∧
      ({ token := "great", polarity := "positive" } : Highlight).token ≠ "well-designed" ∧
      (analyzeSentiment "great well-designed tool").positive =
        (tokenize "great well-designed tool").countP
          (fun t => decide (t ∈ positiveWords.erase "well-designed")) :=
  ⟨(C10_hyphen_lexicon "great well-designed tool").1 "great" (by decide) 'g' (by decide),
    (C10_hyphen_lexicon "great well-designed tool").2.1,
    (C10_hyphen_lexicon "great well-designed tool").2.2.1
      { token := "great", polarity := "positive" } (by decide),
    (C10_hyphen_lexicon "great well-designed tool").2.2.2⟩

example : extractHostname "https://example.com/path" = some "example.com" := by decide

example : buildSentimentQuery "Cursor" 2025 = "Cursor developer feedback reviews 2025" := by decide

example : (analyzeSentiment "great great bug").score = 1 := by decide

example : (analyzeSentiment "").normalizedScore = 0 := by
  have h : tokenize "" = [] := by decide
  simp only [analyzeSentiment, h, classifyTokens]
  norm_num

example : (analyzeSentiment "excellent tool").label = "positive" := by
  have h : tokenize "excellent tool" = ["excellent", "tool"] := by decide
  have h2 : classifyTokens ["excellent", "tool"] (0, 0, []) =
      (1, 0, [⟨"excellent", "positive"⟩]) := by decide
  simp only [analyzeSentiment, h, h2]
  norm_num

example : (summariseSentiment []).rating = "unknown" := by decide

end ResearchAgent
